import Mathlib

/-!
# Verification of the Vexa control plane

Shallow embedding of the Vexa bot-manager (`services/bot-manager/main.py`,
`services/bot-manager/docker_utils.py`) and transcription-collector
(`services/transcription-collector/*`) control logic, together with proofs
about the meeting lifecycle, admission control, the stream consumer's
acknowledgement policy, the segment promoter and on-read transcript assembly.

External collaborators (the Docker engine reached over the unix socket, the
Redis bus) answer queries made by the code; their answers are modelled as
explicit environment inputs to each operation.  Timestamps and relative
segment times are modelled as integers.
-/

/-- Meeting lifecycle states, exactly the string statuses used by the code. -/
inductive MeetingStatus
  | requested
  | active
  | stopping
  | completed
  | failed
  | error
deriving DecidableEq, Repr, BEq

/-- A row of the `meetings` table (`shared_models.models.Meeting`). -/
structure Meeting where
  id : Nat
  userId : Nat
  platform : String
  platformSpecificId : String
  status : MeetingStatus
  botContainerId : Option String
  startTime : Option Int
  endTime : Option Int
  createdAt : Int
deriving DecidableEq, Repr

/-- A row of the `meeting_sessions` table (`shared_models.models.MeetingSession`). -/
structure MeetingSession where
  meetingId : Nat
  sessionUid : String
  sessionStartTime : Int
deriving DecidableEq, Repr

/-- A row of the `transcriptions` table (`shared_models.models.Transcription`). -/
structure Transcription where
  meetingId : Nat
  startTime : Int
  endTime : Int
  text : String
  language : Option String
  sessionUid : Option String
  createdAt : Int
deriving DecidableEq, Repr

/-- The relational store. -/
structure DB where
  meetings : List Meeting
  sessions : List MeetingSession
  transcriptions : List Transcription
deriving DecidableEq, Repr

/-- The user fields consulted by the bot manager. -/
structure BotUser where
  id : Nat
  maxConcurrentBots : Nat
deriving DecidableEq, Repr

/-- `ORDER BY created_at DESC LIMIT 1`: the meeting with the greatest
`created_at` (first one kept on ties). -/
def newestMeeting (ms : List Meeting) : Option Meeting :=
  ms.foldl (fun acc m =>
    match acc with
    | none => some m
    | some b => if b.createdAt < m.createdAt then some m else some b) none

/-- `ORDER BY session_start_time ASC` + `.first()`: the session with the least
`session_start_time` (first one kept on ties). -/
def earliestSession (ss : List MeetingSession) : Option MeetingSession :=
  ss.foldl (fun acc s =>
    match acc with
    | none => some s
    | some b => if s.sessionStartTime < b.sessionStartTime then some s else some b) none

/-- Set the status of every meeting row with the given primary key. -/
def setMeetingStatus (db : DB) (mid : Nat) (st : MeetingStatus) : DB :=
  { db with meetings := db.meetings.map (fun m =>
      if m.id = mid then { m with status := st } else m) }

/-- `existing_meeting.status = 'failed'; existing_meeting.end_time = utcnow()`
as done during duplicate reconciliation in `request_bot`. -/
def markMeetingFailed (db : DB) (mid : Nat) (now : Int) : DB :=
  { db with meetings := db.meetings.map (fun m =>
      if m.id = mid then { m with status := .failed, endTime := some now } else m) }

/-! ## Bot exit callback (`POST /bots/internal/callback/exited`) -/

/-- The callback body (`BotExitCallbackPayload`). -/
structure ExitPayload where
  connectionId : String
  exitCode : Int
deriving DecidableEq, Repr

/-- Which branch of `bot_exit_callback` produced the response. -/
inductive ExitOutcome
  | processed (meetingId : Nat) (finalStatus : MeetingStatus)
  | sessionNotFound
  | meetingNotFound (meetingId : Nat)
deriving DecidableEq, Repr

/-- The endpoint is declared `status_code=HTTP_200_OK` and every non-exception
branch returns a JSON dict, so every modelled outcome is an HTTP 200. -/
def exitHttpStatus : ExitOutcome → Nat
  | _ => 200

/-- `bot_exit_callback` (`services/bot-manager/main.py`): look up the
MeetingSession by `connection_id`, then the Meeting by primary key, set the
status from the exit code and stamp `end_time`. -/
def botExitCallback (db : DB) (now : Int) (p : ExitPayload) : DB × ExitOutcome :=
  match db.sessions.find? (fun s => s.sessionUid == p.connectionId) with
  | none => (db, .sessionNotFound)
  | some sess =>
    match db.meetings.find? (fun m => m.id == sess.meetingId) with
    | none => (db, .meetingNotFound sess.meetingId)
    | some m =>
      let newStatus := if p.exitCode = 0 then MeetingStatus.completed else MeetingStatus.failed
      let db' := { db with meetings := db.meetings.map (fun x =>
          if x.id = m.id then { x with status := newStatus, endTime := some now } else x) }
      (db', .processed m.id newStatus)

/-! ## request_bot (`POST /bots`) -/

/-- Answers of the external container engine during one `request_bot` call:
* `inspect`    — result of `verify_container_running` on the existing
                 meeting's container (`none` models an exception);
* `runningCount` — number of running containers labelled `vexa.user_id=<uid>`
                 returned by the Docker `containers/json` list call;
* `startResult` — `(container_id, connection_id)` of a successful
                 create+start, `none` when the container did not start. -/
structure ReqEnv where
  inspect : Option Bool
  runningCount : Nat
  startResult : Option (String × String)
deriving DecidableEq, Repr

/-- Outcome of a `request_bot` call. -/
inductive ReqOutcome
  | created (meetingId : Nat)
  | conflictRunning (meetingId : Nat)
  | limitReached (limit : Nat)
  | verifyError (meetingId : Nat)
  | startError (meetingId : Nat)
deriving DecidableEq, Repr

/-- HTTP status of each `request_bot` outcome. -/
def reqHttpStatus : ReqOutcome → Nat
  | .created _ => 201
  | .conflictRunning _ => 409
  | .limitReached _ => 403
  | .verifyError _ => 500
  | .startError _ => 500

/-- The duplicate-reconciliation query of `request_bot`: same user, platform
and native id, status in `{requested, active, stopping}`. -/
def duplicateCandidate (uid : Nat) (platform nid : String) (m : Meeting) : Bool :=
  m.userId == uid && m.platform == platform && m.platformSpecificId == nid &&
    (m.status == .requested || m.status == .active || m.status == .stopping)

/-- Append the fresh Meeting row created with `status='requested'`. -/
def insertRequested (db : DB) (u : BotUser) (platform nid : String) (newId : Nat)
    (now : Int) : DB :=
  { db with meetings := db.meetings ++
      [{ id := newId, userId := u.id, platform := platform, platformSpecificId := nid,
         status := .requested, botContainerId := none, startTime := none,
         endTime := none, createdAt := now }] }

/-- `start_bot_container` (`docker_utils.py`) as observed by `request_bot`'s
exception handlers: the per-user limit check runs here, *after* the new row was
inserted; a 403 or a start failure makes the handler mark the new row `error`,
while success schedules `_record_session_start` (inserting a MeetingSession
with the generated connection id and the current time as placeholder) and
promotes the row to `active` with the container id. -/
def launchBot (db : DB) (u : BotUser) (env : ReqEnv) (newId : Nat) (now : Int) :
    DB × ReqOutcome :=
  if u.maxConcurrentBots ≤ env.runningCount then
    (setMeetingStatus db newId .error, .limitReached u.maxConcurrentBots)
  else
    match env.startResult with
    | none => (setMeetingStatus db newId .error, .startError newId)
    | some (cid, connId) =>
      let db1 : DB := { db with sessions := db.sessions ++
          [{ meetingId := newId, sessionUid := connId, sessionStartTime := now }] }
      let db2 : DB := { db1 with meetings := db1.meetings.map (fun m =>
          if m.id = newId then
            { m with status := .active, botContainerId := some cid, startTime := some now }
          else m) }
      (db2, .created newId)

/-- `request_bot` (`services/bot-manager/main.py`): duplicate reconciliation
against the newest candidate row, then insertion of the new `requested` row,
then `start_bot_container` (which performs admission control). -/
def requestBot (db : DB) (u : BotUser) (platform nid : String) (env : ReqEnv)
    (newId : Nat) (now : Int) : DB × ReqOutcome :=
  match newestMeeting (db.meetings.filter (duplicateCandidate u.id platform nid)) with
  | some m =>
    match m.botContainerId with
    | some _ =>
      match env.inspect with
      | none => (db, .verifyError m.id)
      | some true => (db, .conflictRunning m.id)
      | some false =>
        launchBot (insertRequested (markMeetingFailed db m.id now) u platform nid newId now)
          u env newId now
    | none =>
      launchBot (insertRequested (markMeetingFailed db m.id now) u platform nid newId now)
        u env newId now
  | none =>
    launchBot (insertRequested db u platform nid newId now) u env newId now

/-! ## stop_bot (`DELETE /bots/{platform}/{native_meeting_id}`) -/

/-- Observable side effects of a `stop_bot` call: the pub/sub channel the
`{action:"leave"}` command was published on (if any), and the scheduled
delayed container stop `(container_id, delay_seconds)`. -/
structure StopEffects where
  publishedChannel : Option String
  delayedStop : Option (String × Nat)
deriving DecidableEq, Repr

/-- Outcome of a `stop_bot` call. -/
inductive StopOutcome
  | accepted
  | notFound
  | noContainer
  | noSession
deriving DecidableEq, Repr

/-- HTTP status of each `stop_bot` outcome. -/
def stopHttpStatus : StopOutcome → Nat
  | .accepted => 202
  | .notFound => 404
  | .noContainer => 409
  | .noSession => 500

/-- `stop_bot` (`services/bot-manager/main.py`): newest `active` meeting for
the tuple, earliest session as the control channel, publish `leave` when the
bus is reachable (errors are swallowed), schedule a 30 s delayed container
stop, set the status to `stopping`. -/
def stopBot (db : DB) (u : BotUser) (platform nid : String) (busAvailable : Bool) :
    DB × StopEffects × StopOutcome :=
  match newestMeeting (db.meetings.filter (fun m =>
      m.userId == u.id && m.platform == platform && m.platformSpecificId == nid &&
        m.status == .active)) with
  | none => (db, ⟨none, none⟩, .notFound)
  | some m =>
    match m.botContainerId with
    | none => (setMeetingStatus db m.id .error, ⟨none, none⟩, .noContainer)
    | some cid =>
      match earliestSession (db.sessions.filter (fun s => s.meetingId == m.id)) with
      | none => (setMeetingStatus db m.id .error, ⟨none, none⟩, .noSession)
      | some sess =>
        let published := if busAvailable then
            some ("bot_commands:" ++ sess.sessionUid) else none
        (setMeetingStatus db m.id .stopping, ⟨published, some (cid, 30)⟩, .accepted)

/-! ## Stream consumer: session_start upsert
(`services/transcription-collector/streaming/processors.py`) -/

/-- Overwrite `session_start_time` on the first row matching
`(meeting_id, session_uid)`, mirroring the ORM update of the `.first()` row. -/
def updateFirstSession (l : List MeetingSession) (mid : Nat) (uid : String)
    (t : Int) : List MeetingSession :=
  match l with
  | [] => []
  | s :: rest =>
    if s.meetingId == mid && s.sessionUid == uid then
      { s with sessionStartTime := t } :: rest
    else
      s :: updateFirstSession rest mid uid t

/-- The upsert on the session table: if a row matching
`(meeting_id, session_uid)` exists, overwrite its start time, else insert. -/
def upsertSessions (l : List MeetingSession) (mid : Nat) (uid : String)
    (t : Int) : List MeetingSession :=
  match l.find? (fun s => s.meetingId == mid && s.sessionUid == uid) with
  | some _ => updateFirstSession l mid uid t
  | none => l ++ [⟨mid, uid, t⟩]

/-- `process_session_start_event`: upsert the MeetingSession for
`(meeting.id, uid)` with the parsed `start_timestamp`.  The caller has already
resolved the user and the meeting. -/
def processSessionStartEvent (db : DB) (mid : Nat) (uid : String) (t : Int) : DB :=
  { db with sessions := upsertSessions db.sessions mid uid t }

/-! ## Stream consumer: acknowledgement policy
(`services/transcription-collector/main.py`, `process_stream_message` and
`consume_redis_stream`) -/

/-- Result of the user-token lookup in `process_stream_message`: a valid user
was found, the token was unknown (a `ValueError`, a persistent data error), or
the relational store failed transiently. -/
inductive TokenLookup
  | found
  | invalidToken
  | dbError
deriving DecidableEq, Repr

/-- Result of the Redis pipeline (`SADD`/`EXPIRE`/`HSET`) storing the
segments: success, or a transient bus error. -/
inductive PipelineResult
  | ok
  | redisError
deriving DecidableEq, Repr

/-- The decision points of `process_stream_message` on one stream entry, in
the order the code reaches them. -/
structure StreamMsgEnv where
  hasPayloadField : Bool
  payloadParses : Bool
  hasRequiredFields : Bool
  tokenLookup : TokenLookup
  meetingFound : Bool
  validSegmentCount : Nat
  pipeline : PipelineResult
deriving DecidableEq, Repr

/-- `process_stream_message`'s return value: `true` means the message may be
acknowledged, `false` that it must stay pending. -/
def processStreamMessage (e : StreamMsgEnv) : Bool :=
  if !e.hasPayloadField then true
  else if !e.payloadParses then true
  else if !e.hasRequiredFields then true
  else
    match e.tokenLookup with
    | .dbError => false
    | .invalidToken => true
    | .found =>
      if !e.meetingFound then true
      else if 0 < e.validSegmentCount then
        match e.pipeline with
        | .ok => true
        | .redisError => false
      else true

/-- The `consume_redis_stream` batch loop acknowledges exactly the messages
for which `process_stream_message` returned `true`. -/
def ackedMessages (msgs : List (Nat × StreamMsgEnv)) : List Nat :=
  (msgs.filter (fun m => processStreamMessage m.2)).map (fun m => m.1)

/-- Spec-side predicate: processing of the message succeeded (every lookup
passed and, when there were valid segments, the Redis write went through). -/
def processingSucceeded (e : StreamMsgEnv) : Bool :=
  e.hasPayloadField && e.payloadParses && e.hasRequiredFields &&
    e.tokenLookup == .found && e.meetingFound &&
    (e.validSegmentCount == 0 || e.pipeline == .ok)

/-- Spec-side predicate: the failure is an unrecoverable data error — missing
or malformed JSON payload, missing required fields, unknown user (invalid
token) or unknown meeting. -/
def unrecoverableDataError (e : StreamMsgEnv) : Bool :=
  !e.hasPayloadField ||
    (e.hasPayloadField && !e.payloadParses) ||
    (e.hasPayloadField && e.payloadParses && !e.hasRequiredFields) ||
    (e.hasPayloadField && e.payloadParses && e.hasRequiredFields &&
      e.tokenLookup == .invalidToken) ||
    (e.hasPayloadField && e.payloadParses && e.hasRequiredFields &&
      e.tokenLookup == .found && !e.meetingFound)

/-! ## Segment buffer and hash storage -/

/-- The JSON value stored in a `meeting:<id>:segments` hash field.
`updatedAt = none` models a value whose `updated_at` key is missing (such a
field is skipped by the promoter's immutability check). -/
structure SegData where
  text : String
  endTime : Int
  language : Option String
  updatedAt : Option Int
  sessionUid : Option String
deriving DecidableEq, Repr

/-- A raw segment of a transcription stream message; `none` fields model
missing or unparseable JSON values. -/
structure RawSegment where
  startT : Option Int
  endT : Option Int
  text : Option String
  language : Option String
deriving DecidableEq, Repr

/-- Insert-or-replace on an association list, with Python-dict semantics:
replacing keeps the position of the key, inserting appends. -/
def insertReplace {α : Type} (l : List (Int × α)) (k : Int) (v : α) : List (Int × α) :=
  if l.any (fun p => p.1 == k) then
    l.map (fun p => if p.1 == k then (k, v) else p)
  else l ++ [(k, v)]

/-- Association-list lookup by key. -/
def lookupAssoc {α : Type} (l : List (Int × α)) (k : Int) : Option α :=
  (l.find? (fun p => p.1 == k)).map (fun p => p.2)

/-- One step of the consumer's segment loop: a segment lacking `start` or
`end` is skipped, the text defaults to the empty string, and the stored value
records `end_time`, `language`, `updated_at` and the message's `uid`. -/
def storeStep (uid : Option String) (now : Int) (acc : List (Int × SegData))
    (s : RawSegment) : List (Int × SegData) :=
  match s.startT, s.endT with
  | some st, some en =>
    insertReplace acc st
      { text := s.text.getD "", endTime := en, language := s.language,
        updatedAt := some now, sessionUid := uid }
  | _, _ => acc

/-- The `segments_to_store` dict built by the consumer's segment loop. -/
def segmentsToStore (uid : Option String) (now : Int) (segs : List RawSegment) :
    List (Int × SegData) :=
  segs.foldl (storeStep uid now) []

/-! ## Segment promoter
(`services/transcription-collector/background/db_writer.py`,
`process_redis_to_postgres`) -/

/-- The Redis state touched by the promoter: the `active_meetings` set and the
per-meeting `meeting:<id>:segments` hashes. -/
structure RedisState where
  activeMeetings : List Nat
  hashes : List (Nat × List (Int × SegData))
deriving DecidableEq, Repr

/-- `HGETALL meeting:<id>:segments` (a missing key reads as the empty hash). -/
def lookupHash (r : RedisState) (mid : Nat) : List (Int × SegData) :=
  match r.hashes.find? (fun h => h.1 == mid) with
  | some h => h.2
  | none => []

/-- One meeting's pass of the promoter loop: fields whose `updated_at` is
older than `now - threshold` form the aged set; those passing the text filter
become Transcription rows, and *all* aged fields are marked for deletion. -/
def cycleMeeting (f : String → Option String → Bool) (now threshold : Int)
    (mid : Nat) (hash : List (Int × SegData)) : List Transcription × List Int :=
  let aged := hash.filter (fun kv =>
    match kv.2.updatedAt with
    | none => false
    | some t => t < now - threshold)
  ((aged.filter (fun kv => f kv.2.text kv.2.language)).map (fun kv =>
      { meetingId := mid, startTime := kv.1, endTime := kv.2.endTime,
        text := kv.2.text, language := kv.2.language,
        sessionUid := kv.2.sessionUid, createdAt := now }),
   aged.map (fun kv => kv.1))

/-- The batch the promoter accumulates across all active meetings. -/
def promoterBatch (f : String → Option String → Bool) (now threshold : Int)
    (r : RedisState) : List Transcription :=
  (r.activeMeetings.map (fun mid =>
    (cycleMeeting f now threshold mid (lookupHash r mid)).1)).flatten

/-- The keys marked for deletion for one meeting during the cycle. -/
def promoterDeleteKeys (f : String → Option String → Bool) (now threshold : Int)
    (r : RedisState) (mid : Nat) : List Int :=
  if mid ∈ r.activeMeetings then
    (cycleMeeting f now threshold mid (lookupHash r mid)).2
  else []

/-- One promoter cycle: meetings with an empty hash leave `active_meetings`;
the batch is committed and — only then — the marked fields are hash-deleted.
When the batch is empty, or the commit fails (`commitOk = false`, the
rollback path), **no** field is deleted. -/
def promoterCycle (f : String → Option String → Bool) (now threshold : Int)
    (commitOk : Bool) (r : RedisState) (db : DB) : RedisState × DB :=
  let newActive := r.activeMeetings.filter (fun mid => !(lookupHash r mid).isEmpty)
  let batch := promoterBatch f now threshold r
  let r1 : RedisState := { r with activeMeetings := newActive }
  if batch.isEmpty then (r1, db)
  else if commitOk then
    ({ r1 with hashes := r1.hashes.map (fun h =>
        (h.1, h.2.filter (fun kv =>
          !(promoterDeleteKeys f now threshold r h.1).contains kv.1))) },
     { db with transcriptions := db.transcriptions ++ batch })
  else (r1, db)

/-! ## Transcript assembly
(`services/transcription-collector/main.py`, `get_transcript_by_native_id`) -/

/-- An assembled output segment (the fields of `TranscriptionSegment` the
claims speak about, plus the absolute times). -/
structure TransSeg where
  startTime : Int
  endTime : Int
  text : String
  language : Option String
  absoluteStart : Int
  absoluteEnd : Int
deriving DecidableEq, Repr

/-- The platform markers the assembler strips from a hash segment's
`session_uid` before looking it up in the session map (one per `Platform`
enum value, in enum order, first match wins). -/
def platformMarkers : List String := ["google_meet_", "zoom_", "teams_"]

/-- Strip a known platform marker from a session uid found in Redis.
(Character-list operations are used so the function evaluates inside the
kernel; they agree with `String.startsWith`/`String.drop`.) -/
def normalizeSessionUid (uid : String) : String :=
  match platformMarkers.find? (fun p => p.data.isPrefixOf uid.data) with
  | some p => ⟨uid.data.drop p.data.length⟩
  | none => uid

/-- The `session_uid → session_start_time` map built from the MeetingSession
rows of the meeting. -/
def lookupSessionStart (times : List (String × Int)) (uid : String) : Option Int :=
  (times.find? (fun p => p.1 == uid)).map (fun p => p.2)

/-- Add one persisted Transcription row to the merged dict keyed by relative
start: rows with a missing `session_uid` or no session start are dropped;
otherwise the absolute times are `session_start + relative`. -/
def addDbSegment (times : List (String × Int))
    (acc : List (Int × (Int × TransSeg))) (row : Transcription) :
    List (Int × (Int × TransSeg)) :=
  match row.sessionUid with
  | none => acc
  | some uid =>
    match lookupSessionStart times uid with
    | none => acc
    | some t0 =>
      insertReplace acc row.startTime
        (t0 + row.startTime,
         { startTime := row.startTime, endTime := row.endTime, text := row.text,
           language := row.language, absoluteStart := t0 + row.startTime,
           absoluteEnd := t0 + row.endTime })

/-- Add one Redis hash segment, overwriting a persisted entry with the same
relative-start key; the uid is normalized before the session lookup. -/
def addRedisSegment (times : List (String × Int))
    (acc : List (Int × (Int × TransSeg))) (kv : Int × SegData) :
    List (Int × (Int × TransSeg)) :=
  match kv.2.sessionUid with
  | none => acc
  | some uidRaw =>
    match lookupSessionStart times (normalizeSessionUid uidRaw) with
    | none => acc
    | some t0 =>
      insertReplace acc kv.1
        (t0 + kv.1,
         { startTime := kv.1, endTime := kv.2.endTime, text := kv.2.text,
           language := kv.2.language, absoluteStart := t0 + kv.1,
           absoluteEnd := t0 + kv.2.endTime })

/-- The merged dict of step 5: persisted rows first, hash segments after
(hash wins on equal keys). -/
def mergedSegments (times : List (String × Int)) (rows : List Transcription)
    (hash : List (Int × SegData)) : List (Int × (Int × TransSeg)) :=
  hash.foldl (addRedisSegment times) (rows.foldl (addDbSegment times) [])

/-- Steps 5–6 of `get_transcript_by_native_id`: merge, sort the
`(absolute_start, segment)` pairs by absolute start, return the segments. -/
def assembleTranscript (times : List (String × Int)) (rows : List Transcription)
    (hash : List (Int × SegData)) : List TransSeg :=
  ((List.insertionSort (fun a b => a.1 ≤ b.1)
      ((mergedSegments times rows hash).map (fun p => p.2))).map (fun p => p.2))

instance : IsTotal (Int × TransSeg) (fun a b => a.1 ≤ b.1) :=
  ⟨fun a b => Int.le_total a.1 b.1⟩

instance : IsTrans (Int × TransSeg) (fun a b => a.1 ≤ b.1) :=
  ⟨fun _ _ _ hab hbc => Int.le_trans hab hbc⟩

/-! ## Concrete stores used by counterexamples and witnesses -/

/-- One meeting already in the terminal state `completed`, with its session. -/
def dbExitTerminal : DB :=
  ⟨[⟨1, 7, "google_meet", "abc", .completed, some "c1", some 0, some 3, 0⟩],
   [⟨1, "S1", 0⟩], []⟩

/-- One active meeting whose container the driver may report as not running,
with its session. -/
def dbDupDead : DB :=
  ⟨[⟨1, 7, "google_meet", "abc", .active, some "c1", some 0, none, 0⟩], [⟨1, "S1", 0⟩], []⟩

/-- One active meeting with no `bot_container_id`. -/
def dbNoContainer : DB :=
  ⟨[⟨1, 7, "google_meet", "abc", .active, none, some 0, none, 0⟩], [⟨1, "S1", 0⟩], []⟩

/-- One active meeting with a container but no MeetingSession row. -/
def dbNoSession : DB :=
  ⟨[⟨1, 7, "google_meet", "abc", .active, some "c1", some 0, none, 0⟩], [], []⟩

/-- An active meeting with two sessions: `S2` started earlier than `S1`. -/
def dbTwoSessions : DB :=
  ⟨[⟨1, 7, "google_meet", "abc", .active, some "c1", some 0, none, 0⟩],
   [⟨1, "S1", 50⟩, ⟨1, "S2", 20⟩], []⟩

/-- A Redis state with one active meeting whose hash holds a single field,
last updated at time 0 (aged for any cycle at `now = 100`, threshold 30). -/
def rOneAgedField : RedisState :=
  ⟨[1], [(1, [(0, ⟨"xx", 2, none, some 0, some "S1"⟩)])]⟩

section Sanity

example :
    (botExitCallback ⟨[⟨1, 7, "google_meet", "abc", .active, some "c1", some 0, none, 0⟩],
        [⟨1, "S1", 0⟩], []⟩ 5 ⟨"S1", 0⟩).2 = .processed 1 .completed := by decide

example :
    (stopBot ⟨[⟨1, 7, "google_meet", "abc", .active, some "c1", some 0, none, 0⟩],
        [⟨1, "S1", 0⟩], []⟩ ⟨7, 2⟩ "google_meet" "abc" true).2.2 = .accepted := by decide

example : normalizeSessionUid "google_meet_S1" = "S1" := by decide

example :
    assembleTranscript [("S1", 100)] []
      [(0, ⟨"hello world", 2, some "en", some 50, some "google_meet_S1"⟩)] =
      [⟨0, 2, "hello world", some "en", 100, 102⟩] := by decide

end Sanity

/-! ## Shared lemmas -/

/-- Every meeting row with the targeted id carries the new status after
`setMeetingStatus`. -/
theorem setMeetingStatus_status (db : DB) (mid : Nat) (st : MeetingStatus) :
    ∀ x ∈ (setMeetingStatus db mid st).meetings, x.id = mid → x.status = st := by
  intro x hx hid
  simp only [setMeetingStatus, List.mem_map] at hx
  obtain ⟨y, hy, rfl⟩ := hx
  by_cases h : y.id = mid
  · simp [if_pos h]
  · rw [if_neg h] at hid ⊢
    exact absurd hid h

/-- Every meeting row with the targeted id is `failed` with the stamped
`end_time` after `markMeetingFailed`. -/
theorem markMeetingFailed_status (db : DB) (mid : Nat) (now : Int) :
    ∀ x ∈ (markMeetingFailed db mid now).meetings, x.id = mid →
      x.status = .failed ∧ x.endTime = some now := by
  intro x hx hid
  simp only [markMeetingFailed, List.mem_map] at hx
  obtain ⟨y, hy, rfl⟩ := hx
  by_cases h : y.id = mid
  · simp [if_pos h]
  · rw [if_neg h] at hid ⊢
    exact absurd hid h

/-- `newestMeeting` returns an element of its input list. -/
theorem newestMeeting_mem (l : List Meeting) (m : Meeting)
    (h : newestMeeting l = some m) : m ∈ l := by
  have aux : ∀ (l : List Meeting) (acc : Option Meeting),
      l.foldl (fun acc m =>
        match acc with
        | none => some m
        | some b => if b.createdAt < m.createdAt then some m else some b) acc = some m →
      acc = some m ∨ m ∈ l := by
    intro l
    induction l with
    | nil => intro acc h; exact Or.inl h
    | cons x xs ih =>
      intro acc h
      rcases ih _ h with h' | h'
      · cases acc with
        | none =>
          have h'' : some x = some m := h'
          simp only [Option.some.injEq] at h''
          exact Or.inr (h'' ▸ List.mem_cons_self x xs)
        | some b =>
          have h'' : (if b.createdAt < x.createdAt then some x else some b) = some m := h'
          by_cases hlt : b.createdAt < x.createdAt
          · rw [if_pos hlt] at h''
            simp only [Option.some.injEq] at h''
            exact Or.inr (h'' ▸ List.mem_cons_self x xs)
          · rw [if_neg hlt] at h''
            exact Or.inl h''
      · exact Or.inr (List.mem_cons_of_mem x h')
  rcases aux l none h with h' | h'
  · exact absurd h' (by simp)
  · exact h'

/-! ## C1 / C6: the bot exit callback -/

/-- C1 counterexample: the meeting is already in the terminal state
`completed`, yet an exit callback with `exit_code=1` for its session moves it
to `failed` — `bot_exit_callback` has no terminal-state guard. -/
theorem exitCallback_overwrites_terminal_cex :
    dbExitTerminal.meetings.map (fun m => m.status) = [.completed] ∧
    ((botExitCallback dbExitTerminal 5 ⟨"S1", 1⟩).1.meetings.map (fun m => m.status))
      = [.failed] := by
  exact ⟨rfl, by decide⟩

/-- C1 (amended): whenever the exit callback resolves its `connection_id` to a
MeetingSession and that session's meeting exists, the meeting's status is set
to `completed` for `exit_code=0` and `failed` otherwise, *unconditionally* —
a meeting already in a terminal state is overwritten too — and `end_time` is
stamped. -/
theorem exitCallback_sets_status_unconditionally
    (db : DB) (now : Int) (p : ExitPayload) (sess : MeetingSession) (m : Meeting)
    (hs : db.sessions.find? (fun s => s.sessionUid == p.connectionId) = some sess)
    (hm : db.meetings.find? (fun x => x.id == sess.meetingId) = some m) :
    (botExitCallback db now p).2 =
      .processed m.id (if p.exitCode = 0 then .completed else .failed) ∧
    ∀ x ∈ (botExitCallback db now p).1.meetings, x.id = m.id →
      x.status = (if p.exitCode = 0 then .completed else .failed) ∧
      x.endTime = some now := by
  unfold botExitCallback
  simp only [hs, hm]
  refine ⟨by trivial, ?_⟩
  intro x hx hid
  simp only [List.mem_map] at hx
  obtain ⟨y, hy, rfl⟩ := hx
  by_cases h : y.id = m.id
  · simp [if_pos h]
  · rw [if_neg h] at hid ⊢
    exact absurd hid h

/-- Witness for the amended C1 at a concrete store. -/
theorem exitCallback_sets_status_unconditionally_witness :
    (botExitCallback dbExitTerminal 9 ⟨"S1", 1⟩).2 =
      .processed 1 (if (1 : Int) = 0 then .completed else .failed) ∧
    ∀ x ∈ (botExitCallback dbExitTerminal 9 ⟨"S1", 1⟩).1.meetings, x.id = 1 →
      x.status = (if (1 : Int) = 0 then .completed else .failed) ∧
      x.endTime = some 9 :=
  exitCallback_sets_status_unconditionally dbExitTerminal 9 ⟨"S1", 1⟩ ⟨1, "S1", 0⟩
    ⟨1, 7, "google_meet", "abc", .completed, some "c1", some 0, some 3, 0⟩
    (by decide) (by decide)

/-- C6 counterexample: an exit callback whose `connection_id` matches no
MeetingSession returns HTTP 200 (with an error body) and changes nothing —
the endpoint never raises 404. -/
theorem exitCallback_unknown_session_cex :
    (botExitCallback ⟨[], [], []⟩ 0 ⟨"S1", 0⟩).2 = .sessionNotFound ∧
    exitHttpStatus (botExitCallback ⟨[], [], []⟩ 0 ⟨"S1", 0⟩).2 = 200 ∧
    (botExitCallback ⟨[], [], []⟩ 0 ⟨"S1", 0⟩).1 = ⟨[], [], []⟩ ∧
    (200 : Nat) ≠ 404 := by decide

/-- C6 (amended): for every exit callback whose `connection_id` matches no
MeetingSession, the endpoint replies HTTP 200 with the session-not-found
error body and leaves the store unchanged. -/
theorem exitCallback_unknown_session_returns_200
    (db : DB) (now : Int) (p : ExitPayload)
    (h : db.sessions.find? (fun s => s.sessionUid == p.connectionId) = none) :
    botExitCallback db now p = (db, .sessionNotFound) ∧
    exitHttpStatus (botExitCallback db now p).2 = 200 := by
  unfold botExitCallback
  rw [h]
  exact ⟨rfl, rfl⟩

/-- Witness for the amended C6 at a concrete store. -/
theorem exitCallback_unknown_session_returns_200_witness :
    botExitCallback ⟨[], [⟨1, "S1", 0⟩], []⟩ 4 ⟨"S2", 0⟩ =
      (⟨[], [⟨1, "S1", 0⟩], []⟩, .sessionNotFound) ∧
    exitHttpStatus (botExitCallback ⟨[], [⟨1, "S1", 0⟩], []⟩ 4 ⟨"S2", 0⟩).2 = 200 :=
  exitCallback_unknown_session_returns_200 ⟨[], [⟨1, "S1", 0⟩], []⟩ 4 ⟨"S2", 0⟩ (by decide)

/-! ## C2: admission control happens after the Meeting row insert -/

/-- C2 counterexample: a user with `max_concurrent_bots = 0` and no existing
meetings is rejected with 403 — yet a new Meeting row was inserted (and ended
up `error`), so the claim that a 403-rejected request inserts no row fails. -/
theorem admission_after_insert_cex :
    (requestBot ⟨[], [], []⟩ ⟨7, 0⟩ "google_meet" "abc" ⟨none, 0, none⟩ 1 0).2 =
      .limitReached 0 ∧
    reqHttpStatus
      (requestBot ⟨[], [], []⟩ ⟨7, 0⟩ "google_meet" "abc" ⟨none, 0, none⟩ 1 0).2 = 403 ∧
    (requestBot ⟨[], [], []⟩ ⟨7, 0⟩ "google_meet" "abc" ⟨none, 0, none⟩ 1 0).1.meetings.length
      = 1 := by decide

/-- C2 (amended): admission control counts the user's running containers via
the container driver (the `runningCount` field of the environment, obtained
from the Docker list call filtered by the `vexa.user_id` label — the
relational store plays no part in the count, as the quantification over `db`
shows), but it runs inside `start_bot_container`, *after* the new Meeting row
with status `requested` was inserted: a request rejected with 403 for
exceeding `max_concurrent_bots` leaves behind exactly that new row, finally
marked `error` by the exception handler. -/
theorem admission_after_insert
    (db : DB) (u : BotUser) (platform nid : String) (env : ReqEnv)
    (newId : Nat) (now : Int)
    (hfresh : ∀ m ∈ db.meetings, m.id ≠ newId)
    (hnodup : newestMeeting (db.meetings.filter (duplicateCandidate u.id platform nid)) = none)
    (hlimit : u.maxConcurrentBots ≤ env.runningCount) :
    (requestBot db u platform nid env newId now).2 = .limitReached u.maxConcurrentBots ∧
    reqHttpStatus (requestBot db u platform nid env newId now).2 = 403 ∧
    (requestBot db u platform nid env newId now).1.meetings =
      db.meetings ++
        [{ id := newId, userId := u.id, platform := platform,
           platformSpecificId := nid, status := .error, botContainerId := none,
           startTime := none, endTime := none, createdAt := now }] := by
  unfold requestBot
  rw [hnodup]
  unfold launchBot insertRequested setMeetingStatus
  rw [if_pos hlimit]
  refine ⟨rfl, rfl, ?_⟩
  simp only [List.map_append, List.map_cons, List.map_nil, if_pos rfl]
  have hid : db.meetings.map
      (fun m => if m.id = newId then { m with status := MeetingStatus.error } else m)
      = db.meetings := by
    conv_rhs => rw [← List.map_id db.meetings]
    exact List.map_congr_left (fun m hm => by rw [if_neg (hfresh m hm)]; rfl)
  rw [hid]
  simp

/-- Witness for the amended C2 at a concrete store holding one unrelated
meeting row. -/
theorem admission_after_insert_witness :
    (requestBot ⟨[⟨3, 9, "zoom", "123456789", .active, some "c9", some 0, none, 0⟩], [], []⟩
        ⟨7, 1⟩ "google_meet" "abc" ⟨none, 1, none⟩ 4 2).2 = .limitReached 1 ∧
    reqHttpStatus
      (requestBot ⟨[⟨3, 9, "zoom", "123456789", .active, some "c9", some 0, none, 0⟩], [], []⟩
        ⟨7, 1⟩ "google_meet" "abc" ⟨none, 1, none⟩ 4 2).2 = 403 ∧
    (requestBot ⟨[⟨3, 9, "zoom", "123456789", .active, some "c9", some 0, none, 0⟩], [], []⟩
        ⟨7, 1⟩ "google_meet" "abc" ⟨none, 1, none⟩ 4 2).1.meetings =
      [⟨3, 9, "zoom", "123456789", .active, some "c9", some 0, none, 0⟩] ++
        [{ id := 4, userId := 7, platform := "google_meet",
           platformSpecificId := "abc", status := .error, botContainerId := none,
           startTime := none, endTime := none, createdAt := 2 }] :=
  admission_after_insert
    ⟨[⟨3, 9, "zoom", "123456789", .active, some "c9", some 0, none, 0⟩], [], []⟩
    ⟨7, 1⟩ "google_meet" "abc" ⟨none, 1, none⟩ 4 2
    (by decide) (by decide) (by decide)

/-! ## C5: duplicate reconciliation with a dead container -/

/-- C5 counterexample: the newest duplicate has a container id, the driver
reports it not running — but the container start then fails, so the call ends
in a 500, not the 201 the claim asserts (the old row is still marked `failed`
and a new row was created, but marked `error`). -/
theorem duplicate_dead_container_cex :
    (requestBot dbDupDead ⟨7, 5⟩ "google_meet" "abc" ⟨some false, 0, none⟩ 2 10).2 =
      .startError 2 ∧
    reqHttpStatus
      (requestBot dbDupDead ⟨7, 5⟩ "google_meet" "abc" ⟨some false, 0, none⟩ 2 10).2 = 500 ∧
    (500 : Nat) ≠ 201 := by decide

/-- C5 (amended): when the newest Meeting row for the tuple (status in
{requested, active, stopping}) has a `bot_container_id`, the driver's verdict
decides: running means 409 and an unchanged store; not running means the old
row is marked `failed` and a new Meeting row is created — and *provided the
admission check passes and the container start succeeds*, the request returns
201 with the new row `active` and carrying the new container id. -/
theorem duplicate_dead_container_reconciled
    (db : DB) (u : BotUser) (platform nid : String) (env : ReqEnv)
    (newId : Nat) (now : Int) (m : Meeting) (cid c s : String)
    (hm : newestMeeting (db.meetings.filter (duplicateCandidate u.id platform nid)) = some m)
    (hcid : m.botContainerId = some cid)
    (hfresh : ∀ x ∈ db.meetings, x.id ≠ newId) :
    (env.inspect = some true →
      requestBot db u platform nid env newId now = (db, .conflictRunning m.id) ∧
      reqHttpStatus (requestBot db u platform nid env newId now).2 = 409) ∧
    (env.inspect = some false → env.runningCount < u.maxConcurrentBots →
      env.startResult = some (c, s) →
      (requestBot db u platform nid env newId now).2 = .created newId ∧
      reqHttpStatus (requestBot db u platform nid env newId now).2 = 201 ∧
      (∀ x ∈ (requestBot db u platform nid env newId now).1.meetings,
        x.id = m.id → x.status = .failed) ∧
      (∃ x ∈ (requestBot db u platform nid env newId now).1.meetings,
        x.id = newId ∧ x.status = .active ∧ x.botContainerId = some c)) := by
  have hmem : m ∈ db.meetings :=
    (List.mem_filter.mp (newestMeeting_mem _ m hm)).1
  have hmne : m.id ≠ newId := hfresh m hmem
  constructor
  · intro hins
    unfold requestBot
    simp only [hm, hcid, hins]
    exact ⟨trivial, rfl⟩
  · intro hins hlim hstart
    have hnotle : ¬ u.maxConcurrentBots ≤ env.runningCount := Nat.not_le.mpr hlim
    unfold requestBot
    simp only [hm, hcid, hins]
    unfold launchBot
    rw [if_neg hnotle]
    simp only [hstart]
    refine ⟨trivial, rfl, ?_, ?_⟩
    · intro x hx hxid
      simp only [insertRequested, List.mem_map] at hx
      obtain ⟨y, hy, rfl⟩ := hx
      by_cases hyn : y.id = newId
      · rw [if_pos hyn] at hxid
        have h2 : y.id = m.id := hxid
        exact absurd (hyn.symm.trans h2).symm hmne
      · rw [if_neg hyn] at hxid ⊢
        rw [List.mem_append, List.mem_singleton] at hy
        rcases hy with hy | hy
        · exact (markMeetingFailed_status db m.id now y hy hxid).1
        · rw [hy] at hyn
          exact absurd rfl hyn
    · refine ⟨(⟨newId, u.id, platform, nid, .active, some c, some now, none, now⟩ : Meeting),
        ?_, rfl, rfl, rfl⟩
      simp only [insertRequested, List.mem_map]
      refine ⟨(⟨newId, u.id, platform, nid, .requested, none, none, none, now⟩ : Meeting), ?_, ?_⟩
      · rw [List.mem_append, List.mem_singleton]
        exact Or.inr rfl
      · simp

/-- Witness for the amended C5: the theorem is applied at two concrete
environments, one whose driver reports the container running and one whose
driver reports it dead, discharging every hypothesis. -/
theorem duplicate_dead_container_reconciled_witness :
    (requestBot dbDupDead ⟨7, 5⟩ "google_meet" "abc" ⟨some true, 0, some ("c2", "S2")⟩ 2 10 =
      (dbDupDead, .conflictRunning 1) ∧
     reqHttpStatus (requestBot dbDupDead ⟨7, 5⟩ "google_meet" "abc"
       ⟨some true, 0, some ("c2", "S2")⟩ 2 10).2 = 409) ∧
    ((requestBot dbDupDead ⟨7, 5⟩ "google_meet" "abc" ⟨some false, 0, some ("c2", "S2")⟩ 2 10).2 =
      .created 2 ∧
     reqHttpStatus (requestBot dbDupDead ⟨7, 5⟩ "google_meet" "abc"
       ⟨some false, 0, some ("c2", "S2")⟩ 2 10).2 = 201 ∧
     (∀ x ∈ (requestBot dbDupDead ⟨7, 5⟩ "google_meet" "abc"
         ⟨some false, 0, some ("c2", "S2")⟩ 2 10).1.meetings,
       x.id = 1 → x.status = .failed) ∧
     (∃ x ∈ (requestBot dbDupDead ⟨7, 5⟩ "google_meet" "abc"
         ⟨some false, 0, some ("c2", "S2")⟩ 2 10).1.meetings,
       x.id = 2 ∧ x.status = .active ∧ x.botContainerId = some "c2")) :=
  ⟨(duplicate_dead_container_reconciled dbDupDead ⟨7, 5⟩ "google_meet" "abc"
      ⟨some true, 0, some ("c2", "S2")⟩ 2 10
      ⟨1, 7, "google_meet", "abc", .active, some "c1", some 0, none, 0⟩ "c1" "c2" "S2"
      (by decide) (by decide) (by decide)).1 rfl,
   (duplicate_dead_container_reconciled dbDupDead ⟨7, 5⟩ "google_meet" "abc"
      ⟨some false, 0, some ("c2", "S2")⟩ 2 10
      ⟨1, 7, "google_meet", "abc", .active, some "c1", some 0, none, 0⟩ "c1" "c2" "S2"
      (by decide) (by decide) (by decide)).2 rfl (by decide) rfl⟩

/-! ## C9 / C10: stop_bot -/

/-- C9 (confirmed): for every `stop_bot` call that finds an active meeting
with a container id and at least one MeetingSession, the `leave` command is
published on `bot_commands:<session_uid>` of the *earliest* session exactly
when the bus is available (the call continues without error either way), the
meeting becomes `stopping`, a 30-second delayed container stop is scheduled,
and the call returns 202. -/
theorem stopBot_publishes_and_stops
    (db : DB) (u : BotUser) (platform nid : String) (busAvailable : Bool)
    (m : Meeting) (cid : String) (sess : MeetingSession)
    (hm : newestMeeting (db.meetings.filter (fun x =>
        x.userId == u.id && x.platform == platform && x.platformSpecificId == nid &&
          x.status == .active)) = some m)
    (hcid : m.botContainerId = some cid)
    (hsess : earliestSession (db.sessions.filter (fun s => s.meetingId == m.id)) = some sess) :
    (stopBot db u platform nid busAvailable).2.2 = .accepted ∧
    stopHttpStatus (stopBot db u platform nid busAvailable).2.2 = 202 ∧
    (stopBot db u platform nid busAvailable).2.1.publishedChannel =
      (if busAvailable then some ("bot_commands:" ++ sess.sessionUid) else none) ∧
    (stopBot db u platform nid busAvailable).2.1.delayedStop = some (cid, 30) ∧
    ∀ x ∈ (stopBot db u platform nid busAvailable).1.meetings,
      x.id = m.id → x.status = .stopping := by
  unfold stopBot
  simp only [hm, hcid, hsess]
  refine ⟨?_, ?_, ?_, ?_, setMeetingStatus_status db m.id .stopping⟩ <;> trivial

/-- Witness for C9 on a store with two sessions (`S2` is the earliest), with
the bus available. -/
theorem stopBot_publishes_and_stops_witness :
    (stopBot dbTwoSessions ⟨7, 2⟩ "google_meet" "abc" true).2.2 = .accepted ∧
    stopHttpStatus (stopBot dbTwoSessions ⟨7, 2⟩ "google_meet" "abc" true).2.2 = 202 ∧
    (stopBot dbTwoSessions ⟨7, 2⟩ "google_meet" "abc" true).2.1.publishedChannel =
      (if true then some ("bot_commands:" ++ "S2") else none) ∧
    (stopBot dbTwoSessions ⟨7, 2⟩ "google_meet" "abc" true).2.1.delayedStop = some ("c1", 30) ∧
    ∀ x ∈ (stopBot dbTwoSessions ⟨7, 2⟩ "google_meet" "abc" true).1.meetings,
      x.id = 1 → x.status = .stopping :=
  stopBot_publishes_and_stops dbTwoSessions ⟨7, 2⟩ "google_meet" "abc" true
    ⟨1, 7, "google_meet", "abc", .active, some "c1", some 0, none, 0⟩ "c1" ⟨1, "S2", 20⟩
    (by decide) (by decide) (by decide)

/-- C10 (confirmed): `stop_bot`'s error paths mutate the meeting before
raising: when the latest active meeting lacks a `bot_container_id` the
handler sets its status to `error` and answers 409, and when it has one but
no MeetingSession row exists the handler sets `error` and answers 500 — the
error paths are not state-preserving. -/
theorem stopBot_error_paths_mutate
    (db : DB) (u : BotUser) (platform nid : String) (busAvailable : Bool) (m : Meeting)
    (hm : newestMeeting (db.meetings.filter (fun x =>
        x.userId == u.id && x.platform == platform && x.platformSpecificId == nid &&
          x.status == .active)) = some m) :
    (m.botContainerId = none →
      (stopBot db u platform nid busAvailable).2.2 = .noContainer ∧
      stopHttpStatus (stopBot db u platform nid busAvailable).2.2 = 409 ∧
      ∀ x ∈ (stopBot db u platform nid busAvailable).1.meetings,
        x.id = m.id → x.status = .error) ∧
    (∀ cid, m.botContainerId = some cid →
      earliestSession (db.sessions.filter (fun s => s.meetingId == m.id)) = none →
      (stopBot db u platform nid busAvailable).2.2 = .noSession ∧
      stopHttpStatus (stopBot db u platform nid busAvailable).2.2 = 500 ∧
      ∀ x ∈ (stopBot db u platform nid busAvailable).1.meetings,
        x.id = m.id → x.status = .error) := by
  constructor
  · intro hnone
    unfold stopBot
    simp only [hm, hnone]
    refine ⟨?_, ?_, setMeetingStatus_status db m.id .error⟩ <;> trivial
  · intro cid hcid hsess
    unfold stopBot
    simp only [hm, hcid, hsess]
    refine ⟨?_, ?_, setMeetingStatus_status db m.id .error⟩ <;> trivial

/-- Witness for C10: the theorem applied at a store with a container-less
active meeting and at one with no session row, discharging every
hypothesis. -/
theorem stopBot_error_paths_mutate_witness :
    ((stopBot dbNoContainer ⟨7, 2⟩ "google_meet" "abc" true).2.2 = .noContainer ∧
     stopHttpStatus (stopBot dbNoContainer ⟨7, 2⟩ "google_meet" "abc" true).2.2 = 409 ∧
     ∀ x ∈ (stopBot dbNoContainer ⟨7, 2⟩ "google_meet" "abc" true).1.meetings,
       x.id = 1 → x.status = .error) ∧
    ((stopBot dbNoSession ⟨7, 2⟩ "google_meet" "abc" true).2.2 = .noSession ∧
     stopHttpStatus (stopBot dbNoSession ⟨7, 2⟩ "google_meet" "abc" true).2.2 = 500 ∧
     ∀ x ∈ (stopBot dbNoSession ⟨7, 2⟩ "google_meet" "abc" true).1.meetings,
       x.id = 1 → x.status = .error) :=
  ⟨(stopBot_error_paths_mutate dbNoContainer ⟨7, 2⟩ "google_meet" "abc" true
      ⟨1, 7, "google_meet", "abc", .active, none, some 0, none, 0⟩ (by decide)).1 rfl,
   (stopBot_error_paths_mutate dbNoSession ⟨7, 2⟩ "google_meet" "abc" true
      ⟨1, 7, "google_meet", "abc", .active, some "c1", some 0, none, 0⟩ (by decide)).2
     "c1" rfl (by decide)⟩

/-! ## C3: the session_start upsert -/

/-- When the head of the list does not match `(meeting_id, session_uid)`, the
upsert distributes over the cons. -/
theorem upsertSessions_cons_ne (s : MeetingSession) (rest : List MeetingSession)
    (mid : Nat) (uid : String) (t : Int)
    (hg : (s.meetingId == mid && s.sessionUid == uid) = false) :
    upsertSessions (s :: rest) mid uid t = s :: upsertSessions rest mid uid t := by
  unfold upsertSessions
  cases hfind : rest.find? (fun x => x.meetingId == mid && x.sessionUid == uid) with
  | none => simp [List.find?_cons, hg, hfind, updateFirstSession]
  | some w => simp [List.find?_cons, hg, hfind, updateFirstSession]

/-- List-level behaviour of the upsert: under the session-uid uniqueness
invariant (every stored row with this uid belongs to this meeting), reading
back the first row with the uid yields the new start time, whether the upsert
overwrote an existing row or inserted a fresh one. -/
theorem upsert_read_aux (l : List MeetingSession) (mid : Nat) (uid : String) (t : Int)
    (h : ∀ s ∈ l, s.sessionUid = uid → s.meetingId = mid) :
    (((upsertSessions l mid uid t).find? (fun s => s.sessionUid == uid)).map
        (fun s => s.sessionStartTime)) = some t := by
  induction l with
  | nil => simp [upsertSessions, updateFirstSession]
  | cons s rest ih =>
    by_cases hu : s.sessionUid = uid
    · have hmid : s.meetingId = mid := h s (List.mem_cons_self s rest) hu
      have hguard : (s.meetingId == mid && s.sessionUid == uid) = true := by
        simp [hu, hmid]
      simp [upsertSessions, List.find?_cons, hguard, updateFirstSession, hu, hmid]
    · have hguard : (s.meetingId == mid && s.sessionUid == uid) = false := by
        simp [hu]
      have huid : (s.sessionUid == uid) = false := by simp [hu]
      rw [upsertSessions_cons_ne s rest mid uid t hguard]
      simp only [List.find?_cons, huid]
      exact ih (fun x hx hxu => h x (List.mem_cons_of_mem s hx) hxu)

/-- C3 (confirmed): after a `session_start` event with uid `U` and timestamp
`T` for a known meeting (and assuming the schema invariant that `session_uid`
is unique, i.e. every stored row with uid `U` belongs to that meeting), the
MeetingSession for `U` exists and reads back `session_start_time = T`: the
upsert overwrites the existing row or inserts a new one. -/
theorem session_start_upsert_read (db : DB) (mid : Nat) (uid : String) (t : Int)
    (h : ∀ s ∈ db.sessions, s.sessionUid = uid → s.meetingId = mid) :
    (((processSessionStartEvent db mid uid t).sessions.find?
        (fun s => s.sessionUid == uid)).map (fun s => s.sessionStartTime)) = some t :=
  upsert_read_aux db.sessions mid uid t h

/-- Witness for C3: the first call inserts, a second `session_start` for the
same uid overwrites. -/
theorem session_start_upsert_read_witness :
    ((((processSessionStartEvent ⟨[], [⟨1, "S9", 0⟩], []⟩ 1 "S1" 100).sessions.find?
        (fun s => s.sessionUid == "S1")).map (fun s => s.sessionStartTime)) = some 100) ∧
    ((((processSessionStartEvent (processSessionStartEvent ⟨[], [⟨1, "S9", 0⟩], []⟩ 1 "S1" 100)
        1 "S1" 200).sessions.find?
        (fun s => s.sessionUid == "S1")).map (fun s => s.sessionStartTime)) = some 200) :=
  ⟨session_start_upsert_read ⟨[], [⟨1, "S9", 0⟩], []⟩ 1 "S1" 100 (by decide),
   session_start_upsert_read (processSessionStartEvent ⟨[], [⟨1, "S9", 0⟩], []⟩ 1 "S1" 100)
     1 "S1" 200 (by decide)⟩

/-! ## C7: the acknowledgement policy -/

/-- Pointwise form of the acknowledgement policy: `process_stream_message`
returns `true` exactly on success or on an unrecoverable data error. -/
theorem processStreamMessage_ack_iff (e : StreamMsgEnv) :
    processStreamMessage e = (processingSucceeded e || unrecoverableDataError e) := by
  obtain ⟨hp, pp, rf, tl, mf, cnt, pl⟩ := e
  cases hp <;> cases pp <;> cases rf <;> cases tl <;> cases mf <;> cases pl <;>
    cases cnt <;>
    simp [processStreamMessage, processingSucceeded, unrecoverableDataError]

/-- C7 (confirmed): in every consumer batch, the acknowledged messages are
exactly those whose processing succeeded or failed with an unrecoverable data
error (malformed payload, missing fields, unknown user, unknown meeting);
messages hit by a transient store or bus error are not acknowledged and stay
pending. -/
theorem ack_exactly_success_or_data_error (msgs : List (Nat × StreamMsgEnv)) :
    ackedMessages msgs =
      (msgs.filter (fun m =>
        processingSucceeded m.2 || unrecoverableDataError m.2)).map (fun m => m.1) := by
  unfold ackedMessages
  congr 1
  exact List.filter_congr (fun m _ => processStreamMessage_ack_iff m.2)

/-! ## C4: the promoter deletes aged fields only with a non-empty batch -/

/-- `find?` by key commutes with a key-preserving map over an association
list. -/
theorem find?_map_key {β γ : Type} (l : List (Nat × β)) (t : Nat → β → γ) (mid : Nat) :
    ((l.map (fun h => (h.1, t h.1 h.2))).find? (fun h => h.1 == mid)) =
      (l.find? (fun h => h.1 == mid)).map (fun h => (h.1, t h.1 h.2)) := by
  induction l with
  | nil => rfl
  | cons x xs ih =>
    by_cases hx : (x.1 == mid) = true
    · simp [List.find?_cons, hx]
    · simp only [List.map_cons, List.find?_cons]
      rw [show (x.1 == mid) = false by simpa using hx]
      exact ih

/-- Reading a meeting's hash after the per-meeting field deletion. -/
theorem lookupHash_deleted (r : RedisState) (del : Nat → List Int) (A : List Nat)
    (mid : Nat) :
    lookupHash ⟨A, r.hashes.map (fun h =>
        (h.1, h.2.filter (fun kv => !(del h.1).contains kv.1)))⟩ mid =
      (lookupHash r mid).filter (fun kv => !(del mid).contains kv.1) := by
  unfold lookupHash
  rw [find?_map_key r.hashes (fun n h => h.filter (fun kv => !(del n).contains kv.1)) mid]
  cases hf : r.hashes.find? (fun h => h.1 == mid) with
  | none => rfl
  | some h =>
    have h1' : h.1 = mid := by
      have h1 := List.find?_some hf
      simpa using h1
    simp [h1']

/-- Every aged field's key is marked for deletion, whatever the filter says. -/
theorem mem_promoterDeleteKeys (f : String → Option String → Bool)
    (now threshold : Int) (r : RedisState) (mid : Nat) (k : Int) (d : SegData) (t : Int)
    (hmid : mid ∈ r.activeMeetings) (hkv : (k, d) ∈ lookupHash r mid)
    (hupd : d.updatedAt = some t) (ht : t < now - threshold) :
    k ∈ promoterDeleteKeys f now threshold r mid := by
  unfold promoterDeleteKeys
  rw [if_pos hmid]
  unfold cycleMeeting
  refine List.mem_map.mpr ⟨(k, d), ?_, rfl⟩
  refine List.mem_filter.mpr ⟨hkv, ?_⟩
  simp [hupd, ht]

/-- A row produced by one meeting's pass of the promoter loop passed the text
filter. -/
theorem cycleMeeting_passes (f : String → Option String → Bool)
    (now threshold : Int) (mid : Nat) (hash : List (Int × SegData)) (tr : Transcription)
    (h : tr ∈ (cycleMeeting f now threshold mid hash).1) :
    f tr.text tr.language = true := by
  unfold cycleMeeting at h
  simp only [List.mem_map, List.mem_filter] at h
  obtain ⟨kv, ⟨_, hpass⟩, rfl⟩ := h
  exact hpass

/-- C4 counterexample: one active meeting, one hash field aged well past the
cutoff but rejected by the filter; the cycle's batch is empty, so the field is
*not* removed from the hash — it is still there after the cycle. -/
theorem promoter_keeps_rejected_aged_field_cex :
    ((⟨"xx", 2, none, some 0, some "S1"⟩ : SegData).updatedAt = some 0) ∧
    ((0 : Int) < 100 - 30) ∧
    (1 ∈ rOneAgedField.activeMeetings) ∧
    ((fun (_ : String) (_ : Option String) => false) "xx" none = false) ∧
    lookupHash ((promoterCycle (fun _ _ => false) 100 30 true rOneAgedField
        ⟨[], [], []⟩).1) 1 = [(0, ⟨"xx", 2, none, some 0, some "S1"⟩)] := by
  refine ⟨rfl, by decide, by decide, rfl, by decide⟩

/-- C4 (amended): in every promoter cycle, every hash field whose
`updated_at` is older than the immutability cutoff is marked for deletion
regardless of the text filter's verdict, and rejected segments are never
stored as Transcription rows; but the marked fields are actually removed from
the meeting's segment hash only when the cycle's batch of accepted segments
is non-empty and its commit succeeds — a cycle all of whose aged fields are
rejected deletes nothing. -/
theorem promoter_cycle_behaviour (f : String → Option String → Bool)
    (now threshold : Int) (r : RedisState) (db : DB) :
    (∀ commitOk : Bool, ∀ tr ∈ (promoterCycle f now threshold commitOk r db).2.transcriptions,
      tr ∈ db.transcriptions ∨ f tr.text tr.language = true) ∧
    (∀ (mid : Nat) (k : Int) (d : SegData) (t : Int),
      mid ∈ r.activeMeetings → (k, d) ∈ lookupHash r mid →
      d.updatedAt = some t → t < now - threshold →
      (promoterBatch f now threshold r).isEmpty = false →
      ∀ d', (k, d') ∉ lookupHash (promoterCycle f now threshold true r db).1 mid) := by
  constructor
  · intro commitOk tr htr
    unfold promoterCycle at htr
    by_cases hb : (promoterBatch f now threshold r).isEmpty
    · rw [if_pos hb] at htr
      exact Or.inl htr
    · rw [if_neg hb] at htr
      cases commitOk with
      | false => exact Or.inl htr
      | true =>
        simp only [if_true] at htr
        rw [List.mem_append] at htr
        rcases htr with htr | htr
        · exact Or.inl htr
        · right
          unfold promoterBatch at htr
          rw [List.mem_flatten] at htr
          obtain ⟨chunk, hchunk, htr⟩ := htr
          rw [List.mem_map] at hchunk
          obtain ⟨mid, _, rfl⟩ := hchunk
          exact cycleMeeting_passes f now threshold mid (lookupHash r mid) tr htr
  · intro mid k d t hmid hkv hupd ht hne d' hmem
    have hres : (promoterCycle f now threshold true r db).1 =
        ⟨r.activeMeetings.filter (fun x => !(lookupHash r x).isEmpty),
         r.hashes.map (fun h => (h.1, h.2.filter (fun kv =>
           !(promoterDeleteKeys f now threshold r h.1).contains kv.1)))⟩ := by
      unfold promoterCycle
      rw [if_neg (by rw [hne]; exact Bool.false_ne_true)]
      rfl
    rw [hres, lookupHash_deleted] at hmem
    have hpred := (List.mem_filter.mp hmem).2
    have hdel : k ∈ promoterDeleteKeys f now threshold r mid :=
      mem_promoterDeleteKeys f now threshold r mid k d t hmid hkv hupd ht
    simp only [Bool.not_eq_true'] at hpred
    simp [List.contains] at hpred
    exact hpred hdel

/-- Witness for the amended C4: a cycle over a hash holding one aged accepted
field and one aged rejected field removes both, and stores only the accepted
one. -/
theorem promoter_cycle_behaviour_witness :
    (∀ commitOk : Bool, ∀ tr ∈ (promoterCycle (fun s _ => s == "keep me now") 100 30 commitOk
        ⟨[1], [(1, [(0, ⟨"keep me now", 2, none, some 0, some "S1"⟩),
                    (5, ⟨"xx", 7, none, some 0, some "S1"⟩)])]⟩
        ⟨[], [], []⟩).2.transcriptions,
      tr ∈ (⟨[], [], []⟩ : DB).transcriptions ∨
        (fun (s : String) (_ : Option String) => s == "keep me now") tr.text tr.language = true) ∧
    ∀ d', ((5 : Int), d') ∉ lookupHash ((promoterCycle (fun s _ => s == "keep me now") 100 30 true
        ⟨[1], [(1, [(0, ⟨"keep me now", 2, none, some 0, some "S1"⟩),
                    (5, ⟨"xx", 7, none, some 0, some "S1"⟩)])]⟩
        ⟨[], [], []⟩).1) 1 :=
  ⟨(promoter_cycle_behaviour (fun s _ => s == "keep me now") 100 30
      ⟨[1], [(1, [(0, ⟨"keep me now", 2, none, some 0, some "S1"⟩),
                  (5, ⟨"xx", 7, none, some 0, some "S1"⟩)])]⟩ ⟨[], [], []⟩).1,
   (promoter_cycle_behaviour (fun s _ => s == "keep me now") 100 30
      ⟨[1], [(1, [(0, ⟨"keep me now", 2, none, some 0, some "S1"⟩),
                  (5, ⟨"xx", 7, none, some 0, some "S1"⟩)])]⟩ ⟨[], [], []⟩).2
     1 5 ⟨"xx", 7, none, some 0, some "S1"⟩ 0 (by decide) (by decide) rfl (by decide) (by decide)⟩

/-! ## C8: transcript assembly round trip, hash precedence and sortedness -/

/-- After overwriting the (present) key `k`, `find?` by `k` yields the new
entry. -/
theorem find?_overwrite {α : Type} (l : List (Int × α)) (k : Int) (v : α)
    (h : l.any (fun p => p.1 == k) = true) :
    (l.map (fun p => if p.1 == k then (k, v) else p)).find? (fun p => p.1 == k)
      = some (k, v) := by
  induction l with
  | nil => simp at h
  | cons x xs ih =>
    by_cases hx : (x.1 == k) = true
    · simp only [List.map_cons, List.find?_cons]
      rw [if_pos hx, show (((k, v) : Int × α).1 == k) = true by simp]
    · have h' : xs.any (fun p => p.1 == k) = true := by
        simp only [List.any_cons, hx, Bool.false_or] at h
        exact h
      simp only [List.map_cons, List.find?_cons]
      rw [if_neg (by simpa using hx), show (x.1 == k) = false by simpa using hx]
      exact ih h'

/-- Lookup of the inserted key after `insertReplace`. -/
theorem lookupAssoc_insertReplace_self {α : Type} (l : List (Int × α)) (k : Int) (v : α) :
    lookupAssoc (insertReplace l k v) k = some v := by
  unfold insertReplace lookupAssoc
  by_cases h : l.any (fun p => p.1 == k)
  · rw [if_pos h, find?_overwrite l k v h]
    rfl
  · rw [if_neg h, List.find?_append]
    have hnone : l.find? (fun p => p.1 == k) = none := by
      rw [List.find?_eq_none]
      intro p hp hc
      exact h (List.any_eq_true.mpr ⟨p, hp, hc⟩)
    rw [hnone]
    simp

/-- `find?` by a different key ignores the overwrite-at-`k` map. -/
theorem find?_ne_key_map {α : Type} (l : List (Int × α)) (k k' : Int) (v : α)
    (hne : k' ≠ k) :
    (l.map (fun p => if p.1 == k then (k, v) else p)).find? (fun p => p.1 == k')
      = l.find? (fun p => p.1 == k') := by
  induction l with
  | nil => rfl
  | cons x xs ih =>
    by_cases hx : (x.1 == k) = true
    · have hxk : x.1 = k := by simpa using hx
      simp only [List.map_cons, List.find?_cons]
      rw [if_pos hx,
        show (((k, v) : Int × α).1 == k') = false by simpa using Ne.symm hne,
        show (x.1 == k') = false by rw [hxk]; simpa using Ne.symm hne]
      exact ih
    · simp only [List.map_cons, List.find?_cons]
      rw [if_neg hx]
      cases hx' : (x.1 == k') with
      | true => rfl
      | false => exact ih

/-- Lookup of a different key is unchanged by `insertReplace`. -/
theorem lookupAssoc_insertReplace_ne {α : Type} (l : List (Int × α)) (k k' : Int) (v : α)
    (hne : k' ≠ k) : lookupAssoc (insertReplace l k v) k' = lookupAssoc l k' := by
  unfold insertReplace lookupAssoc
  by_cases h : l.any (fun p => p.1 == k)
  · rw [if_pos h, find?_ne_key_map l k k' v hne]
  · rw [if_neg h, List.find?_append]
    have hsing : ([((k, v) : Int × α)].find? (fun p => p.1 == k')) = none := by
      simp [Ne.symm hne]
    rw [hsing]
    simp

/-- Members of `insertReplace` are old members or the inserted pair. -/
theorem mem_insertReplace {α : Type} (l : List (Int × α)) (k : Int) (v : α)
    (p : Int × α) (h : p ∈ insertReplace l k v) : p ∈ l ∨ p = (k, v) := by
  unfold insertReplace at h
  by_cases hany : l.any (fun q => q.1 == k)
  · rw [if_pos hany] at h
    rw [List.mem_map] at h
    obtain ⟨q, hq, rfl⟩ := h
    by_cases hqk : (q.1 == k) = true
    · right
      simp [hqk]
    · left
      simpa [hqk] using hq
  · rw [if_neg hany] at h
    rw [List.mem_append, List.mem_singleton] at h
    exact h

/-- `insertReplace` preserves key distinctness. -/
theorem keys_insertReplace_nodup {α : Type} (l : List (Int × α)) (k : Int) (v : α)
    (h : (l.map Prod.fst).Nodup) : ((insertReplace l k v).map Prod.fst).Nodup := by
  unfold insertReplace
  by_cases hany : l.any (fun q => q.1 == k)
  · rw [if_pos hany]
    have hkeys : (l.map (fun p => if p.1 == k then (k, v) else p)).map Prod.fst
        = l.map Prod.fst := by
      rw [List.map_map]
      apply List.map_congr_left
      intro p _
      by_cases hpk : (p.1 == k) = true
      · have heq : p.1 = k := by simpa using hpk
        simp [hpk, heq]
      · have hne : ¬ p.1 = k := by simpa using hpk
        simp [hne]
    rw [hkeys]
    exact h
  · rw [if_neg hany, List.map_append]
    have hk : k ∉ l.map Prod.fst := by
      intro hc
      rw [List.mem_map] at hc
      obtain ⟨p, hp, hpk⟩ := hc
      exact absurd (List.any_eq_true.mpr ⟨p, hp, by simp [hpk]⟩) hany
    refine List.Nodup.append h (List.nodup_singleton k) ?_
    intro a ha hb
    simp only [List.map_cons, List.map_nil, List.mem_singleton] at hb
    exact hk (hb ▸ ha)

/-- Every value stored by the consumer's segment loop carries the message's
`uid` and the write time (generalized over the accumulator). -/
theorem storeStep_foldl_fields (uid : Option String) (now : Int) (segs : List RawSegment) :
    ∀ acc : List (Int × SegData),
      (∀ q ∈ acc, q.2.sessionUid = uid ∧ q.2.updatedAt = some now) →
      ∀ q ∈ segs.foldl (storeStep uid now) acc,
        q.2.sessionUid = uid ∧ q.2.updatedAt = some now := by
  induction segs with
  | nil =>
    intro acc hacc q hq
    exact hacc q hq
  | cons s rest ih =>
    intro acc hacc q hq
    rw [List.foldl_cons] at hq
    refine ih (storeStep uid now acc s) ?_ q hq
    intro p hp
    unfold storeStep at hp
    cases hst : s.startT with
    | none =>
      rw [hst] at hp
      exact hacc p hp
    | some st =>
      cases hen : s.endT with
      | none =>
        rw [hst, hen] at hp
        exact hacc p hp
      | some en =>
        rw [hst, hen] at hp
        rcases mem_insertReplace _ _ _ _ hp with hold | hnew
        · exact hacc p hold
        · rw [hnew]
          exact ⟨rfl, rfl⟩

/-- Fields stored for a message carry its `uid` and write time. -/
theorem segmentsToStore_fields (uid : Option String) (now : Int) (segs : List RawSegment)
    (k : Int) (d : SegData) (h : (k, d) ∈ segmentsToStore uid now segs) :
    d.sessionUid = uid ∧ d.updatedAt = some now :=
  storeStep_foldl_fields uid now segs [] (by intro q hq; cases hq) (k, d) h

/-- The stored dict has pairwise-distinct keys. -/
theorem segmentsToStore_keys_nodup (uid : Option String) (now : Int)
    (segs : List RawSegment) :
    ((segmentsToStore uid now segs).map Prod.fst).Nodup := by
  have gen : ∀ acc : List (Int × SegData), (acc.map Prod.fst).Nodup →
      ((segs.foldl (storeStep uid now) acc).map Prod.fst).Nodup := by
    induction segs with
    | nil => intro acc hacc; exact hacc
    | cons s rest ih =>
      intro acc hacc
      rw [List.foldl_cons]
      refine ih (storeStep uid now acc s) ?_
      unfold storeStep
      cases hst : s.startT with
      | none => exact hacc
      | some st =>
        cases hen : s.endT with
        | none => exact hacc
        | some en => exact keys_insertReplace_nodup acc st _ hacc
  exact gen [] (by simp)

/-- `addRedisSegment` leaves lookups at other keys unchanged. -/
theorem lookupAssoc_addRedis_ne (times : List (String × Int))
    (acc : List (Int × (Int × TransSeg))) (kv : Int × SegData) (k : Int)
    (h : kv.1 ≠ k) :
    lookupAssoc (addRedisSegment times acc kv) k = lookupAssoc acc k := by
  unfold addRedisSegment
  cases hs : kv.2.sessionUid with
  | none => simp only [hs]
  | some uidRaw =>
    simp only [hs]
    cases hT : lookupSessionStart times (normalizeSessionUid uidRaw) with
    | none => simp only [hT]
    | some t0 =>
      simp only [hT]
      exact lookupAssoc_insertReplace_ne acc kv.1 k _ (Ne.symm h)

/-- Folding segments whose keys avoid `k` preserves the lookup at `k`. -/
theorem lookupAssoc_foldl_addRedis_not_mem (times : List (String × Int))
    (hash : List (Int × SegData)) :
    ∀ acc : List (Int × (Int × TransSeg)), (∀ kv ∈ hash, kv.1 ≠ k) →
      lookupAssoc (hash.foldl (addRedisSegment times) acc) k = lookupAssoc acc k := by
  induction hash with
  | nil => intro acc _; rfl
  | cons x xs ih =>
    intro acc h
    rw [List.foldl_cons,
      ih (addRedisSegment times acc x) (fun kv hkv => h kv (List.mem_cons_of_mem x hkv))]
    exact lookupAssoc_addRedis_ne times acc x k (h x (List.mem_cons_self x xs))

/-- With pairwise-distinct keys, folding the hash over any accumulator makes
the lookup at an entry's key return the assembled `(absolute_start, segment)`
pair for that entry — the hash value wins over whatever the accumulator
(the persisted rows) held at the same key. -/
theorem lookupAssoc_foldl_addRedis_found (times : List (String × Int))
    (hash : List (Int × SegData)) (k : Int) (d : SegData) (uidRaw : String) (T : Int)
    (huid : d.sessionUid = some uidRaw)
    (hT : lookupSessionStart times (normalizeSessionUid uidRaw) = some T) :
    ∀ acc : List (Int × (Int × TransSeg)), (k, d) ∈ hash → (hash.map Prod.fst).Nodup →
      lookupAssoc (hash.foldl (addRedisSegment times) acc) k =
        some (T + k, ⟨k, d.endTime, d.text, d.language, T + k, T + d.endTime⟩) := by
  induction hash with
  | nil =>
    intro acc hmem _
    cases hmem
  | cons x xs ih =>
    intro acc hmem hnodup
    rw [List.foldl_cons]
    rcases List.mem_cons.mp hmem with heq | hmem'
    · have hk : ∀ kv ∈ xs, kv.1 ≠ k := by
        intro kv hkv hc
        have hx1 : x.1 = k := by rw [← heq]
        have hnot : x.1 ∉ xs.map Prod.fst := (List.nodup_cons.mp
          (by simpa using hnodup)).1
        exact hnot (hx1 ▸ hc ▸ List.mem_map_of_mem Prod.fst hkv)
      rw [lookupAssoc_foldl_addRedis_not_mem times xs (addRedisSegment times acc x) hk]
      rw [← heq]
      unfold addRedisSegment
      simp only [huid, hT]
      exact lookupAssoc_insertReplace_self acc k _
    · exact ih (addRedisSegment times acc x) hmem' (List.Nodup.of_cons (by simpa using hnodup))

/-- One `addDbSegment` step keeps the key-equals-absolute-start invariant. -/
theorem addDbSegment_invariant (times : List (String × Int))
    (acc : List (Int × (Int × TransSeg))) (row : Transcription)
    (hacc : ∀ p ∈ acc, p.2.1 = p.2.2.absoluteStart) :
    ∀ p ∈ addDbSegment times acc row, p.2.1 = p.2.2.absoluteStart := by
  intro p hp
  unfold addDbSegment at hp
  cases hs : row.sessionUid with
  | none =>
    simp only [hs] at hp
    exact hacc p hp
  | some uid =>
    simp only [hs] at hp
    cases hT : lookupSessionStart times uid with
    | none =>
      simp only [hT] at hp
      exact hacc p hp
    | some t0 =>
      simp only [hT] at hp
      rcases mem_insertReplace _ _ _ _ hp with hold | hnew
      · exact hacc p hold
      · rw [hnew]

/-- One `addRedisSegment` step keeps the key-equals-absolute-start
invariant. -/
theorem addRedisSegment_invariant (times : List (String × Int))
    (acc : List (Int × (Int × TransSeg))) (kv : Int × SegData)
    (hacc : ∀ p ∈ acc, p.2.1 = p.2.2.absoluteStart) :
    ∀ p ∈ addRedisSegment times acc kv, p.2.1 = p.2.2.absoluteStart := by
  intro p hp
  unfold addRedisSegment at hp
  cases hs : kv.2.sessionUid with
  | none =>
    simp only [hs] at hp
    exact hacc p hp
  | some uidRaw =>
    simp only [hs] at hp
    cases hT : lookupSessionStart times (normalizeSessionUid uidRaw) with
    | none =>
      simp only [hT] at hp
      exact hacc p hp
    | some t0 =>
      simp only [hT] at hp
      rcases mem_insertReplace _ _ _ _ hp with hold | hnew
      · exact hacc p hold
      · rw [hnew]

/-- Every entry of the merged dict pairs each segment with its absolute start
(the sorting key used in step 6). -/
theorem merged_abs_invariant (times : List (String × Int)) (rows : List Transcription)
    (hash : List (Int × SegData)) :
    ∀ p ∈ mergedSegments times rows hash, p.2.1 = p.2.2.absoluteStart := by
  have hdb : ∀ acc : List (Int × (Int × TransSeg)),
      (∀ p ∈ acc, p.2.1 = p.2.2.absoluteStart) →
      ∀ p ∈ rows.foldl (addDbSegment times) acc, p.2.1 = p.2.2.absoluteStart := by
    induction rows with
    | nil => intro acc hacc; exact hacc
    | cons r rs ih =>
      intro acc hacc
      rw [List.foldl_cons]
      exact ih _ (addDbSegment_invariant times acc r hacc)
  have hredis : ∀ acc : List (Int × (Int × TransSeg)),
      (∀ p ∈ acc, p.2.1 = p.2.2.absoluteStart) →
      ∀ p ∈ hash.foldl (addRedisSegment times) acc, p.2.1 = p.2.2.absoluteStart := by
    induction hash with
    | nil => intro acc hacc; exact hacc
    | cons x xs ih =>
      intro acc hacc
      rw [List.foldl_cons]
      exact ih _ (addRedisSegment_invariant times acc x hacc)
  exact hredis _ (hdb [] (by intro p hp; cases hp))

/-- A segment reachable by key lookup in the merged dict appears in the
assembled output. -/
theorem mem_output_of_lookup (times : List (String × Int)) (rows : List Transcription)
    (hash : List (Int × SegData)) (k : Int) (v : Int × TransSeg)
    (h : lookupAssoc (mergedSegments times rows hash) k = some v) :
    v.2 ∈ assembleTranscript times rows hash := by
  unfold lookupAssoc at h
  cases hf : (mergedSegments times rows hash).find? (fun p => p.1 == k) with
  | none =>
    rw [hf] at h
    cases h
  | some p =>
    rw [hf] at h
    have hv : p.2 = v := by
      simpa using h
    have hp : p ∈ mergedSegments times rows hash := List.mem_of_find?_eq_some hf
    have hmap : p.2 ∈ (mergedSegments times rows hash).map (fun q => q.2) :=
      List.mem_map_of_mem _ hp
    unfold assembleTranscript
    refine List.mem_map.mpr ⟨p.2, ?_, by rw [hv]⟩
    exact ((List.perm_insertionSort _ _).mem_iff).mpr hmap

/-- The assembled output is sorted by absolute start time. -/
theorem assembleTranscript_sorted (times : List (String × Int))
    (rows : List Transcription) (hash : List (Int × SegData)) :
    List.Pairwise (fun a b => a.absoluteStart ≤ b.absoluteStart)
      (assembleTranscript times rows hash) := by
  unfold assembleTranscript
  rw [List.pairwise_map]
  have hsorted : List.Sorted (fun a b : Int × TransSeg => a.1 ≤ b.1)
      (List.insertionSort (fun a b : Int × TransSeg => a.1 ≤ b.1)
        ((mergedSegments times rows hash).map (fun p => p.2))) :=
    List.sorted_insertionSort _ _
  have hinv : ∀ q ∈ List.insertionSort (fun a b : Int × TransSeg => a.1 ≤ b.1)
      ((mergedSegments times rows hash).map (fun p => p.2)), q.1 = q.2.absoluteStart := by
    intro q hq
    have hq' : q ∈ (mergedSegments times rows hash).map (fun p => p.2) :=
      ((List.perm_insertionSort _ _).mem_iff).mp hq
    rw [List.mem_map] at hq'
    obtain ⟨p, hp, rfl⟩ := hq'
    exact merged_abs_invariant times rows hash p hp
  exact hsorted.imp_of_mem (fun ha hb hr => by
    rw [← hinv _ ha, ← hinv _ hb]
    exact hr)

/-- C8 (confirmed): for every valid transcription stream message — its
stored hash fields are `segmentsToStore uid now segs` — whose (normalized)
session uid has a recorded `session_start_time`, the on-read assembly (1)
resolves the merged entry at that relative-start key to the hash-derived
segment, carrying the message's text, with
`absolute_start = session_start_time + relative start` — taking precedence
over any persisted Transcription row with the same start-time key, since the
conclusion holds for *every* `rows` —, (2) returns that segment in the
output, and (3) returns the whole list sorted by absolute start. -/
theorem transcript_roundtrip
    (times : List (String × Int)) (rows : List Transcription) (segs : List RawSegment)
    (uidRaw : String) (now T k : Int) (d : SegData)
    (hmem : (k, d) ∈ segmentsToStore (some uidRaw) now segs)
    (hT : lookupSessionStart times (normalizeSessionUid uidRaw) = some T) :
    lookupAssoc (mergedSegments times rows (segmentsToStore (some uidRaw) now segs)) k =
      some (T + k, ⟨k, d.endTime, d.text, d.language, T + k, T + d.endTime⟩) ∧
    (⟨k, d.endTime, d.text, d.language, T + k, T + d.endTime⟩ : TransSeg) ∈
      assembleTranscript times rows (segmentsToStore (some uidRaw) now segs) ∧
    List.Pairwise (fun a b => a.absoluteStart ≤ b.absoluteStart)
      (assembleTranscript times rows (segmentsToStore (some uidRaw) now segs)) := by
  have huid : d.sessionUid = some uidRaw :=
    (segmentsToStore_fields (some uidRaw) now segs k d hmem).1
  have hnodup := segmentsToStore_keys_nodup (some uidRaw) now segs
  have hlook : lookupAssoc
      (mergedSegments times rows (segmentsToStore (some uidRaw) now segs)) k =
      some (T + k, ⟨k, d.endTime, d.text, d.language, T + k, T + d.endTime⟩) := by
    unfold mergedSegments
    exact lookupAssoc_foldl_addRedis_found times _ k d uidRaw T huid hT _ hmem hnodup
  exact ⟨hlook, mem_output_of_lookup times rows _ k _ hlook,
    assembleTranscript_sorted times rows _⟩

/-- Witness for C8: a one-segment message with the platform-prefixed uid
`google_meet_S1`, a session map giving `S1 → 100`, and a persisted row at the
same key 0 that the hash entry overrides. -/
theorem transcript_roundtrip_witness :
    lookupAssoc (mergedSegments [("S1", 100)] [⟨1, 0, 1, "old", none, some "S1", 0⟩]
        (segmentsToStore (some "google_meet_S1") 50
          [⟨some 0, some 2, some "hello world", some "en"⟩])) 0 =
      some (100 + 0, ⟨0, 2, "hello world", some "en", 100 + 0, 100 + 2⟩) ∧
    (⟨0, 2, "hello world", some "en", 100 + 0, 100 + 2⟩ : TransSeg) ∈
      assembleTranscript [("S1", 100)] [⟨1, 0, 1, "old", none, some "S1", 0⟩]
        (segmentsToStore (some "google_meet_S1") 50
          [⟨some 0, some 2, some "hello world", some "en"⟩]) ∧
    List.Pairwise (fun a b => a.absoluteStart ≤ b.absoluteStart)
      (assembleTranscript [("S1", 100)] [⟨1, 0, 1, "old", none, some "S1", 0⟩]
        (segmentsToStore (some "google_meet_S1") 50
          [⟨some 0, some 2, some "hello world", some "en"⟩])) :=
  transcript_roundtrip [("S1", 100)] [⟨1, 0, 1, "old", none, some "S1", 0⟩]
    [⟨some 0, some 2, some "hello world", some "en"⟩] "google_meet_S1" 50 100 0
    ⟨"hello world", 2, some "en", some 50, some "google_meet_S1"⟩
    (by decide) (by decide)
